import Mathlib

/-!
Verification of the Berlin winery analysis engine.

This file gives a shallow embedding, over exact rationals, of the analytic
core of the repository:

  - district assignment (`assign_districts_to_wineries` in
    `scripts/create_winery_growth_analysis.py` and
    `scripts/create_winery_density_map.py`),
  - district statistics and the fallback "Other" area
    (`scripts/create_winery_density_map.py`),
  - the backward historical simulation
    (`simulate_historical_winery_development`),
  - growth metrics (`calculate_growth_metrics`),
  - the synthetic temporal datasets and cross-correlation machinery
    (`scripts/create_temporal_leading_indicator_analysis.py`).

Modelling conventions:
  - Python floats are modelled as exact rationals; `round(x, n)` is modelled
    as exact round-half-to-even at `n` decimal digits.
  - The NumPy global pseudo-random stream (seeded once by
    `np.random.seed(42)`, then consumed sequentially by successive
    `np.random.normal` calls) is modelled by an explicit draw function
    `noise : Nat → ℚ` indexed by the position of the draw in the stream.
  - A Pearson coefficient r is represented by the order-preserving encoding
    sign(r) * r^2, which is rational whenever the inputs are rational; the
    map r ↦ sign(r) * r^2 is strictly monotone on [-1, 1], so equalities and
    order comparisons of encoded values agree exactly with those of the
    underlying coefficients.  scipy's NaN results (constant input) and its
    rejection of length-below-2 input are both modelled as `none`; the
    p-value is undefined exactly when the coefficient is, so the single
    `Option` models the pair.
-/

attribute [local semireducible] Rat.add Rat.mul Rat.inv Rat.sub Rat.ofScientific

/-- Exact round-half-to-even of a rational to an integer (the rounding Python
`round` performs, idealised to exact arithmetic). -/
def roundHalfEven (x : ℚ) : ℤ :=
  let f : ℤ := ⌊x⌋
  let r : ℚ := x - f
  if r < 1/2 then f
  else if 1/2 < r then f + 1
  else if f % 2 = 0 then f else f + 1

/-- Python `round(q, n)` on exact rationals. -/
def pyRound (n : ℕ) (q : ℚ) : ℚ :=
  (roundHalfEven (q * 10 ^ n) : ℚ) / 10 ^ n

/-- Axis-aligned bounding box of a district, as in the `bounds` dictionaries. -/
structure Bounds where
  latMin : ℚ
  latMax : ℚ
  lonMin : ℚ
  lonMax : ℚ
deriving DecidableEq, Repr

/-- One catalog entry of `get_district_boundaries_and_areas`: name, bounding
box, area in km^2 and (for the density-map variant) population. -/
structure CatEntry where
  name : String
  bounds : Bounds
  area : ℚ
  pop : ℚ
deriving DecidableEq, Repr

/-- A point-located entity (winery row): identifier plus optional coordinates.
A `none` coordinate models a missing value (`winery.get` returning `None`). -/
structure Entity where
  id : String
  lat : Option ℚ
  lon : Option ℚ
deriving DecidableEq, Repr

/-- Python truthiness of an optional float: `None` and `0.0` are falsy.
(The float NaN, which is truthy in Python, has no rational counterpart and is
outside this model.) -/
def pyTruthy : Option ℚ → Bool
  | none => false
  | some q => q ≠ 0

/-- Bounding-box containment test of the assignment loops:
`lat_min <= lat <= lat_max and lon_min <= lon <= lon_max`, bounds inclusive. -/
def containsBB (b : Bounds) (la lo : ℚ) : Prop :=
  b.latMin ≤ la ∧ la ≤ b.latMax ∧ b.lonMin ≤ lo ∧ lo ≤ b.lonMax

instance (b : Bounds) (la lo : ℚ) : Decidable (containsBB b la lo) := by
  unfold containsBB; infer_instance

/-- The inner loop of `assign_districts_to_wineries`: walk the catalog in
declared order, return the first district whose box contains the point, keep
the initial label `"Other"` when none does. -/
def findFirstDistrict : List CatEntry → ℚ → ℚ → String
  | [], _, _ => "Other"
  | c :: rest, la, lo =>
    if containsBB c.bounds la lo then c.name else findFirstDistrict rest la lo

/-- The assignment of one row in `assign_districts_to_wineries` (both the
growth-analysis and the density-map variant share this body): the district
column starts as `"Other"` and the catalog loop only runs under the Python
truthiness guard `if lat and lon:`. -/
def assignDistrictCode (cat : List CatEntry) (lat lon : Option ℚ) : String :=
  if pyTruthy lat ∧ pyTruthy lon then
    match lat, lon with
    | some la, some lo => findFirstDistrict cat la lo
    | _, _ => "Other"
  else "Other"

/-- Modelled from the spec (section 4.1), for comparison with the code: the
first cataloged region whose bounding box contains the coordinates, with
fallback label `"Other"` when no box contains them. -/
def specFirstMatch : List CatEntry → ℚ → ℚ → String
  | [], _, _ => "Other"
  | c :: rest, la, lo =>
    if containsBB c.bounds la lo then c.name else specFirstMatch rest la lo

/-- Label of one entity under the code assignment. -/
def assignLabel (cat : List CatEntry) (e : Entity) : String :=
  assignDistrictCode cat e.lat e.lon

/-- Row-wise assignment of a whole entity list, as the per-row loop performs
it (each row is written independently of every other row). -/
def assignAll (cat : List CatEntry) (l : List Entity) : List (String × String) :=
  l.map (fun e => (e.id, assignLabel cat e))

/-- Catalog of `get_district_boundaries_and_areas` in
`create_winery_growth_analysis.py`, in its declaration order.  That file
carries no population data; population is set to 0 here and unused by the
growth-analysis claims. -/
def growthCatalog : List CatEntry :=
  [ ⟨"Prenzlauer Berg", ⟨52.520, 52.560, 13.400, 13.450⟩, 10.9, 0⟩,
    ⟨"Neukölln", ⟨52.450, 52.500, 13.400, 13.470⟩, 44.9, 0⟩,
    ⟨"Friedrichshain", ⟨52.500, 52.530, 13.420, 13.480⟩, 9.8, 0⟩,
    ⟨"Kreuzberg", ⟨52.490, 52.520, 13.380, 13.420⟩, 15.2, 0⟩,
    ⟨"Wedding", ⟨52.530, 52.570, 13.330, 13.380⟩, 9.5, 0⟩,
    ⟨"Mitte", ⟨52.500, 52.550, 13.350, 13.420⟩, 39.5, 0⟩,
    ⟨"Charlottenburg", ⟨52.490, 52.530, 13.280, 13.350⟩, 64.7, 0⟩,
    ⟨"Schöneberg", ⟨52.460, 52.500, 13.330, 13.380⟩, 10.5, 0⟩,
    ⟨"Tempelhof", ⟨52.450, 52.490, 13.380, 13.420⟩, 12.2, 0⟩,
    ⟨"Steglitz", ⟨52.440, 52.480, 13.310, 13.360⟩, 9.2, 0⟩,
    ⟨"Wilmersdorf", ⟨52.470, 52.510, 13.280, 13.330⟩, 8.9, 0⟩,
    ⟨"Spandau", ⟨52.520, 52.580, 13.160, 13.280⟩, 91.9, 0⟩ ]

/-- Catalog of `get_district_boundaries_and_areas` in
`create_winery_density_map.py`, in its (different) declaration order, with
populations. -/
def densityCatalog : List CatEntry :=
  [ ⟨"Mitte", ⟨52.500, 52.550, 13.350, 13.420⟩, 39.5, 383000⟩,
    ⟨"Prenzlauer Berg", ⟨52.520, 52.560, 13.400, 13.450⟩, 10.9, 165000⟩,
    ⟨"Charlottenburg", ⟨52.490, 52.530, 13.280, 13.350⟩, 64.7, 129000⟩,
    ⟨"Kreuzberg", ⟨52.490, 52.520, 13.380, 13.420⟩, 15.2, 154000⟩,
    ⟨"Neukölln", ⟨52.450, 52.500, 13.400, 13.470⟩, 44.9, 329000⟩,
    ⟨"Friedrichshain", ⟨52.500, 52.530, 13.420, 13.480⟩, 9.8, 289000⟩,
    ⟨"Schöneberg", ⟨52.460, 52.500, 13.330, 13.380⟩, 10.5, 349000⟩,
    ⟨"Wedding", ⟨52.530, 52.570, 13.330, 13.380⟩, 9.5, 87000⟩,
    ⟨"Tempelhof", ⟨52.450, 52.490, 13.380, 13.420⟩, 12.2, 56000⟩,
    ⟨"Steglitz", ⟨52.440, 52.480, 13.310, 13.360⟩, 9.2, 105000⟩,
    ⟨"Wilmersdorf", ⟨52.470, 52.510, 13.280, 13.330⟩, 8.9, 94000⟩,
    ⟨"Spandau", ⟨52.520, 52.580, 13.160, 13.280⟩, 91.9, 245000⟩ ]

/-- One row of the `district_stats` table built by
`assign_districts_to_wineries` in `create_winery_density_map.py`
(`center` and `description` are presentation-only and omitted). -/
structure StatRow where
  district : String
  count : ℕ
  area : ℚ
  density : ℚ
  pop : ℚ
  per100k : ℚ
deriving DecidableEq, Repr

/-- Total Berlin area used for the `"Other"` bucket (line
`berlin_total_area = 891.7`). -/
def berlinTotalArea : ℚ := 891.7

/-- Sum of the cataloged district areas (`total_defined_area`). -/
def sumAreas (cat : List CatEntry) : ℚ := (cat.map (·.area)).sum

/-- The stats row of one cataloged district: count of entities labelled with
its name, `density = count / area if area > 0 else 0` rounded to 3 digits,
and `per100k = count / population * 100000` (0 when population is not
positive) rounded to 2 digits. -/
def statRowOf (labels : List String) (c : CatEntry) : StatRow :=
  let n := labels.count c.name
  { district := c.name
    count := n
    area := c.area
    density := if c.area > 0 then pyRound 3 ((n : ℚ) / c.area) else 0
    pop := c.pop
    per100k := if c.pop > 0 then pyRound 2 ((n : ℚ) / c.pop * 100000) else 0 }

/-- The `"Other"` stats row: appended only when at least one entity carries
the fallback label.  Its area is `891.7 - total_defined_area` with no lower
clamp; the density division is guarded by `if other_area > 0`, and the
population is the hard-coded estimate 800000. -/
def otherStatRows (cat : List CatEntry) (labels : List String) : List StatRow :=
  let n := labels.count "Other"
  if 0 < n then
    let otherArea := berlinTotalArea - sumAreas cat
    [ { district := "Other"
        count := n
        area := otherArea
        density := if otherArea > 0 then pyRound 3 ((n : ℚ) / otherArea) else 0
        pop := 800000
        per100k := pyRound 2 ((n : ℚ) / 800000 * 100000) } ]
  else []

/-- The full `district_stats` table from the labels column: one row per
cataloged district in catalog order, then the `"Other"` row when nonempty.
The final presentation sort (`sort_values` by density, descending) is
omitted; every statement below is membership-based, not position-based. -/
def districtStats (cat : List CatEntry) (labels : List String) : List StatRow :=
  cat.map (statRowOf labels) ++ otherStatRows cat labels

/-- Labels column produced for an entity list by the assignment loop. -/
def labelsOf (cat : List CatEntry) (l : List Entity) : List String :=
  l.map (assignLabel cat)

/-- The composed pipeline of `assign_districts_to_wineries` in
`create_winery_density_map.py`: assign, then tabulate. -/
def assignAndStats (cat : List CatEntry) (l : List Entity) :
    List (String × String) × List StatRow :=
  (assignAll cat l, districtStats cat (labelsOf cat l))

/-- Growth context of one district in `get_district_historical_context`:
`base_growth_rate` and `peak_growth_years` (the other fields are text). -/
structure Ctx where
  base : ℚ
  peaks : List ℤ
deriving DecidableEq, Repr

/-- One row of the simulated historical table (`district_history` entries;
the copied-through text columns are omitted). -/
structure SimRow where
  district : String
  year : ℤ
  density : ℚ
  count : ℤ
  yoy : ℚ
deriving DecidableEq, Repr

/-- The per-year backward computation of
`simulate_historical_winery_development` (lines 184-205): the effective
annual growth is `base_growth_rate * year_modifier * random_factor` with
`year_modifier = 1.3` in peak years and `1.0` otherwise, and the historical
density is `current / (1 + annual_growth) ^ years_back` floored at 0. -/
def histDensity (cur : ℚ) (c : Ctx) (noiseVal : ℚ) (year : ℤ) : ℚ :=
  let yearModifier : ℚ := if year ∈ c.peaks then 1.3 else 1.0
  let annualGrowth := c.base * yearModifier * noiseVal
  max 0 (cur / (1 + annualGrowth) ^ (2024 - year).toNat)

/-- Year-over-year rate between consecutive stored densities (lines
229-232): relative change when the previous density is positive, otherwise
`1.0` if the current one is positive and `0.0` if not. -/
def yoyRate (prev curr : ℚ) : ℚ :=
  if prev > 0 then (curr - prev) / prev
  else if curr > 0 then 1 else 0

/-- Second pass of the simulation (lines 225-237): fill the
`yoy_growth_rate` column from consecutive stored (rounded) densities,
rounding to 4 digits, with the first chronological year fixed at `0.0`. -/
def applyYoYGo : ℚ → List SimRow → List SimRow
  | _, [] => []
  | prev, r :: rs =>
    { r with yoy := pyRound 4 (yoyRate prev r.density) } :: applyYoYGo r.density rs

/-- Entry point of the year-over-year pass; see `applyYoYGo`. -/
def applyYoY : List SimRow → List SimRow
  | [] => []
  | r :: rs => { r with yoy := 0 } :: applyYoYGo r.density rs

/-- The years 2014-2024 in the reversed order the simulation walks them. -/
def yearsRev : List ℤ :=
  [2024, 2023, 2022, 2021, 2020, 2019, 2018, 2017, 2016, 2015, 2014]

/-- The `for year in reversed(years)` loop of one district (lines 178-219):
the 2024 iteration copies the current density and count and draws nothing;
every earlier year performs exactly one `np.random.normal` draw from the
global stream (`k` is the index of the next unconsumed draw).  Every stored
density, the 2024 one included, is rounded to 4 digits (line 213); the
count is `int(density * area)` of the unrounded density, which for these
nonnegative values is the floor. -/
def simYears (name : String) (area cur : ℚ) (curCount : ℤ) (c : Ctx)
    (noise : ℕ → ℚ) : List ℤ → ℕ → List SimRow
  | [], _ => []
  | y :: ys, k =>
    if y = 2024 then
      ⟨name, 2024, pyRound 4 cur, curCount, 0⟩ ::
        simYears name area cur curCount c noise ys k
    else
      ⟨name, y, pyRound 4 (histDensity cur c (noise k) y),
          ⌊histDensity cur c (noise k) y * area⌋, 0⟩ ::
        simYears name area cur curCount c noise ys (k + 1)

/-- History of one district: run the reversed-year loop starting at draw
index `c0`, put the rows in chronological order (`district_history.reverse()`)
and apply the year-over-year pass. -/
def simDistrict (name : String) (area cur : ℚ) (curCount : ℤ) (c : Ctx)
    (noise : ℕ → ℚ) (c0 : ℕ) : List SimRow :=
  applyYoY ((simYears name area cur curCount c noise yearsRev c0).reverse)

/-- Main loop of `simulate_historical_winery_development` over the catalog
in declared order: districts without a context entry are skipped (and
consume no draws); each simulated district consumes the next 10 draws of
the single global noise stream. -/
def simGo : List CatEntry → (String → Option Ctx) → (String → ℚ × ℤ) →
    (ℕ → ℚ) → ℕ → List SimRow
  | [], _, _, _, _ => []
  | c :: rest, ctxOf, curOf, noise, c0 =>
    match ctxOf c.name with
    | none => simGo rest ctxOf curOf noise c0
    | some k =>
      simDistrict c.name c.area (curOf c.name).1 (curOf c.name).2 k noise c0
        ++ simGo rest ctxOf curOf noise (c0 + 10)

/-- `simulate_historical_winery_development`, parameterised by the current
(2024) density and count of each district and by the global noise stream
(the sequence of `np.random.normal(1.0, 0.1)` draws after
`np.random.seed(42)`). -/
def simulateHistorical (cat : List CatEntry) (ctxOf : String → Option Ctx)
    (curOf : String → ℚ × ℤ) (noise : ℕ → ℚ) : List SimRow :=
  simGo cat ctxOf curOf noise 0

/-- The current-density precomputation (lines 147-160): per district, the
count of entities assigned to it and `count / area` guarded by `area > 0`. -/
def currentFromEntities (cat : List CatEntry) (l : List Entity) (name : String) :
    ℚ × ℤ :=
  match cat.find? (fun c => c.name == name) with
  | some c =>
    let n := (labelsOf cat l).count name
    (if c.area > 0 then (n : ℚ) / c.area else 0, (n : ℤ))
  | none => (0, 0)

/-- The composed simulation: assign districts to the input entities,
compute current densities, then synthesize backwards. -/
def simulateFromEntities (cat : List CatEntry) (ctxOf : String → Option Ctx)
    (l : List Entity) (noise : ℕ → ℚ) : List SimRow :=
  simulateHistorical cat ctxOf (currentFromEntities cat l) noise

/-- The concrete per-district contexts of
`get_district_historical_context` (base rates and peak years). -/
def contextTable : List (String × Ctx) :=
  [ ("Prenzlauer Berg", ⟨0.08, [2015, 2016, 2017]⟩),
    ("Neukölln", ⟨0.15, [2018, 2019, 2020, 2021]⟩),
    ("Friedrichshain", ⟨0.12, [2017, 2018, 2019]⟩),
    ("Kreuzberg", ⟨0.10, [2016, 2017, 2018]⟩),
    ("Wedding", ⟨0.18, [2021, 2022, 2023]⟩),
    ("Mitte", ⟨0.05, [2014, 2015, 2016]⟩),
    ("Charlottenburg", ⟨0.06, [2019, 2020, 2021]⟩),
    ("Schöneberg", ⟨0.09, [2017, 2018, 2019]⟩),
    ("Tempelhof", ⟨0.07, [2020, 2021, 2022]⟩),
    ("Steglitz", ⟨0.08, [2018, 2019, 2020]⟩),
    ("Wilmersdorf", ⟨0.07, [2019, 2020, 2021]⟩),
    ("Spandau", ⟨0.12, [2022, 2023, 2024]⟩) ]

/-- Context lookup used when running the pipeline on the real catalog. -/
def districtContext (n : String) : Option Ctx :=
  (contextTable.find? (fun p => p.1 == n)).map (·.2)

/-- Stored density of district `d` at year `y` in a simulated table. -/
def densityAt (rows : List SimRow) (d : String) (y : ℤ) : Option ℚ :=
  (rows.find? (fun r => r.district == d && r.year == y)).map (·.density)

/-- Number of catalog entries that have a growth context (each consumes 10
draws of the global stream). -/
def ctxCount (cat : List CatEntry) (ctxOf : String → Option Ctx) : ℕ :=
  (cat.filter (fun c => (ctxOf c.name).isSome)).length

/-- Accumulator pass of `uniqList`: emit a value the first time it is seen. -/
def uniqListGo (seen : List String) : List String → List String
  | [] => []
  | x :: xs => if x ∈ seen then uniqListGo seen xs else x :: uniqListGo (x :: seen) xs

/-- Distinct values in order of first appearance, as
`historical_df['district'].unique()` lists them. -/
def uniqList (l : List String) : List String := uniqListGo [] l

/-- Insertion step of the year sort. -/
def insertByYear (r : SimRow) : List SimRow → List SimRow
  | [] => [r]
  | x :: xs => if r.year < x.year then r :: x :: xs else x :: insertByYear r xs

/-- Sort a district's rows by year (`sort_values('year')`). -/
def sortByYear : List SimRow → List SimRow
  | [] => []
  | r :: rs => insertByYear r (sortByYear rs)

/-- One row of the growth-metrics table of `calculate_growth_metrics`.
The `cagr` column (`(end/start) ^ (1/years) - 1`) and the
`growth_volatility` column (sample standard deviation) take irrational
root values and are outside the rational model; they are omitted here, as
is the final `sort_values('cagr')`, which only permutes rows — every
statement about this table below is membership-based, not position-based. -/
structure Metrics where
  district : String
  startDensity : ℚ
  endDensity : ℚ
  totalGrowth : ℚ
  avgAnnualGrowth : ℚ
  peakYear : ℤ
  peakRate : ℚ
deriving DecidableEq, Repr

instance : Inhabited SimRow := ⟨⟨"", 0, 0, 0, 0⟩⟩

/-- `idxmax` over the `yoy_growth_rate` column: the first row attaining the
maximum (pandas `idxmax` returns the first occurrence; the fold only
replaces on a strictly greater value). -/
def peakRowGo (best : SimRow) : List SimRow → SimRow
  | [] => best
  | r :: rs => peakRowGo (if r.yoy > best.yoy then r else best) rs

/-- The metrics computed for one district from its year-sorted rows
(lines 342-384): start/end densities, total growth with the zero-start
special case, the mean of the whole `yoy_growth_rate` column, and the peak
row; the reported rationals are rounded to 4 digits. -/
def metricsOf (d : String) (sub : List SimRow) : Metrics :=
  let first := sub.headD default
  let last := sub.getLastD default
  let s := first.density
  let e := last.density
  let total : ℚ := if s > 0 then (e - s) / s else if e > 0 then 1 else 0
  let avg : ℚ := (sub.map (·.yoy)).sum / sub.length
  let peak := peakRowGo first sub
  { district := d
    startDensity := pyRound 4 s
    endDensity := pyRound 4 e
    totalGrowth := pyRound 4 total
    avgAnnualGrowth := pyRound 4 avg
    peakYear := peak.year
    peakRate := pyRound 4 peak.yoy }

/-- `calculate_growth_metrics`: for each district in order of first
appearance, sort its rows by year and — only when it has at least 2 rows
(`if len(district_data) < 2: continue`) — emit its metrics row.  This is
the `growth_metrics` list before the final
`pd.DataFrame(growth_metrics).sort_values('cagr', ascending=False)`; that
last step is modelled by `calcGrowthMetricsE` below. -/
def calcGrowthMetrics (rows : List SimRow) : List Metrics :=
  (uniqList (rows.map (·.district))).filterMap (fun d =>
    let sub := sortByYear (rows.filter (fun r => r.district == d))
    if sub.length < 2 then none else some (metricsOf d sub))

/-- `calculate_growth_metrics` with its final DataFrame step, exceptions
included: on a nonempty metrics list `pd.DataFrame(...)` has a `cagr`
column and `sort_values` merely permutes the rows (the ordering is omitted
here — the `cagr` key takes irrational root values and every statement
about this table is membership-based); on the empty list the frame has no
columns at all and `sort_values('cagr')` raises an uncaught KeyError,
crashing the step. -/
def calcGrowthMetricsE (rows : List SimRow) : Except Unit (List Metrics) :=
  if calcGrowthMetrics rows = [] then Except.error ()
  else Except.ok (calcGrowthMetrics rows)

/-- Modelled from the spec (section 4.4): the average year-over-year growth
as the mean of the yoy rates excluding the undefined first entry of the
year-sorted series. -/
def specAvgYoYExclFirst (rows : List SimRow) (d : String) : ℚ :=
  let sub := sortByYear (rows.filter (fun r => r.district == d))
  (((sub.drop 1).map (·.yoy)).sum) / (sub.drop 1).length

/-- Real-estate pattern of one district in `get_annual_real_estate_data`:
2014 base price, the 11-entry annual-rate list (only the first 10 are read)
and the volatility. -/
structure REPat where
  name : String
  base : ℚ
  rates : List ℚ
  vol : ℚ
deriving DecidableEq, Repr

/-- Winery pattern of one district in `get_annual_winery_growth_data`:
2014 base count, growth phases `(start_year, end_year, rate)` and the
volatility. -/
structure WinPat where
  name : String
  base : ℚ
  phases : List (ℤ × ℤ × ℚ)
  vol : ℚ
deriving DecidableEq, Repr

/-- One row of the two generated temporal tables; `value` is the
`price_eur_sqm` or `winery_count` column, `rate` the
`annual_growth_rate`, and `chg` the price-change or absolute-growth
column (`value * rate`). -/
structure TRow where
  district : String
  year : ℤ
  value : ℚ
  rate : ℚ
  chg : ℚ
deriving DecidableEq, Repr

/-- First matching growth phase of a year, else 0 (lines 171-175). -/
def phaseRate (phases : List (ℤ × ℤ × ℚ)) (y : ℤ) : ℚ :=
  match phases with
  | [] => 0
  | (s, e, r) :: rest => if s ≤ y ∧ y ≤ e then r else phaseRate rest y

/-- The value-threading loop shared by both generators: one row per year
with the running value and that year's effective rate, the value multiplied
by `1 + rate` between rows, and a final end-state row with rate 0. -/
def genRows (name : String) (value : ℚ) (rates : List ℚ) (yr : ℤ) : List TRow :=
  match rates with
  | [] => [⟨name, yr, value, 0, 0⟩]
  | r :: rs => ⟨name, yr, value, r, value * r⟩ :: genRows name (value * (1 + r)) rs (yr + 1)

/-- Effective real-estate rates for 2014-2023: pattern rate plus a
`normal(0, vol/10)` draw from the global stream, clamped by
`max(0, annual_rate)` (lines 67-68); the draw is modelled as `vol/10`
times a unit draw. -/
def effRatesRE (p : REPat) (noise : ℕ → ℚ) (c0 : ℕ) : List ℚ :=
  (List.range 10).map (fun i => max 0 (p.rates.getD i 0 + p.vol / 10 * noise (c0 + i)))

/-- Effective winery rates for 2014-2023: phase rate plus a
`normal(0, vol/5)` draw, clamped at 0 (lines 171-179). -/
def effRatesWin (p : WinPat) (noise : ℕ → ℚ) (c0 : ℕ) : List ℚ :=
  (List.range 10).map (fun i => max 0 (phaseRate p.phases (2014 + Int.ofNat i) + p.vol / 5 * noise (c0 + i)))

/-- District loop of `get_annual_real_estate_data`: each district consumes
the next 10 draws of the single global stream. -/
def genAllRE : List REPat → (ℕ → ℚ) → ℕ → List TRow
  | [], _, _ => []
  | p :: rest, noise, c0 =>
    genRows p.name p.base (effRatesRE p noise c0) 2014 ++ genAllRE rest noise (c0 + 10)

/-- District loop of `get_annual_winery_growth_data`. -/
def genAllWin : List WinPat → (ℕ → ℚ) → ℕ → List TRow
  | [], _, _ => []
  | p :: rest, noise, c0 =>
    genRows p.name p.base (effRatesWin p noise c0) 2014 ++ genAllWin rest noise (c0 + 10)

/-- The concrete `district_patterns` table of `get_annual_real_estate_data`. -/
def realEstatePatterns : List REPat :=
  [ ⟨"Neukölln", 2400,
      [0.03, 0.05, 0.08, 0.12, 0.15, 0.18, 0.14, 0.10, 0.08, 0.06, 0.04], 0.15⟩,
    ⟨"Wedding", 2100,
      [0.02, 0.03, 0.04, 0.05, 0.06, 0.08, 0.12, 0.15, 0.18, 0.14, 0.10], 0.12⟩,
    ⟨"Friedrichshain", 3200,
      [0.04, 0.06, 0.09, 0.12, 0.15, 0.12, 0.10, 0.08, 0.06, 0.05, 0.04], 0.10⟩,
    ⟨"Kreuzberg", 3400,
      [0.05, 0.07, 0.10, 0.12, 0.09, 0.08, 0.07, 0.06, 0.05, 0.04, 0.03], 0.08⟩,
    ⟨"Prenzlauer Berg", 4200,
      [0.08, 0.10, 0.09, 0.07, 0.06, 0.05, 0.04, 0.04, 0.03, 0.03, 0.02], 0.06⟩,
    ⟨"Mitte", 4500,
      [0.06, 0.08, 0.09, 0.08, 0.07, 0.06, 0.05, 0.04, 0.04, 0.03, 0.03], 0.05⟩ ]

/-- The concrete `winery_patterns` table of `get_annual_winery_growth_data`. -/
def wineryPatterns : List WinPat :=
  [ ⟨"Neukölln", 2,
      [(2014, 2016, 0.1), (2017, 2019, 0.4), (2020, 2022, 0.6), (2023, 2024, 0.3)], 0.3⟩,
    ⟨"Wedding", 1,
      [(2014, 2017, 0.05), (2018, 2020, 0.3), (2021, 2023, 0.5), (2024, 2024, 0.4)], 0.4⟩,
    ⟨"Friedrichshain", 4,
      [(2014, 2015, 0.2), (2016, 2018, 0.5), (2019, 2021, 0.4), (2022, 2024, 0.2)], 0.25⟩,
    ⟨"Kreuzberg", 6,
      [(2014, 2016, 0.3), (2017, 2019, 0.4), (2020, 2022, 0.2), (2023, 2024, 0.1)], 0.2⟩,
    ⟨"Prenzlauer Berg", 8,
      [(2014, 2017, 0.25), (2018, 2020, 0.15), (2021, 2024, 0.05)], 0.15⟩,
    ⟨"Mitte", 10,
      [(2014, 2017, 0.2), (2018, 2021, 0.1), (2022, 2024, 0.05)], 0.1⟩ ]

/-- `get_annual_real_estate_data`, parameterised by the global noise
stream. -/
def getAnnualRealEstateData (noise : ℕ → ℚ) : List TRow :=
  genAllRE realEstatePatterns noise 0

/-- `get_annual_winery_growth_data`, parameterised by the global noise
stream. -/
def getAnnualWineryGrowthData (noise : ℕ → ℚ) : List TRow :=
  genAllWin wineryPatterns noise 0

/-- The value column of one district, in emitted (chronological) order. -/
def seriesFor (rows : List TRow) (d : String) : List ℚ :=
  (rows.filter (fun r => r.district == d)).map (·.value)

/-- Mean of a rational list (0 for the empty list). -/
def listMean (l : List ℚ) : ℚ := l.sum / l.length

/-- Sum of centred cross products, the Pearson numerator up to the common
`1 / (n - 1)` factor. -/
def centeredProds (xs ys : List ℚ) : ℚ :=
  ((xs.zip ys).map (fun p => (p.1 - listMean xs) * (p.2 - listMean ys))).sum

/-- Sum of centred squares of a list. -/
def centeredSq (xs : List ℚ) : ℚ :=
  (xs.map (fun a => (a - listMean xs) ^ 2)).sum

/-- Sign of a rational as a rational. -/
def sgn (q : ℚ) : ℚ := if 0 < q then 1 else if q < 0 then -1 else 0

deriving instance DecidableEq for Except

/-- `scipy.stats.pearsonr`, in the order-preserving encoding
`sign(r) * r^2` (see the header), with its two failure modes kept apart:
on an input with fewer than 2 observations `pearsonr` raises a
`ValueError` — modelled as `Except.error ()`, an uncaught exception — and
on constant input it returns NaN with a warning — modelled as
`Except.ok none`, a recorded undefined marker.  The p-value is undefined
exactly when the coefficient is, so the single `Option` in the `ok` case
models the `(corr, p_val)` pair. -/
def pearsonE (xs ys : List ℚ) : Except Unit (Option ℚ) :=
  if xs.length < 2 ∨ ys.length < 2 then Except.error ()
  else if centeredSq xs = 0 ∨ centeredSq ys = 0 then Except.ok none
  else Except.ok (some (sgn (centeredProds xs ys) * centeredProds xs ys ^ 2 /
    (centeredSq xs * centeredSq ys)))

/-- The body of the lag loop in `calculate_cross_correlation` (lines
218-233), exceptions included: at lag 0 correlate the full series; at
positive lag correlate `x[:-lag]` with `y[lag:]` when `len(x) > lag`, else
record NaN (`ok none`); at negative lag correlate `x[abs(lag):]` with
`y[:lag]` when `len(y) > abs(lag)`, else record NaN.  A `ValueError`
escaping `pearsonr` (guard passed but a slice shorter than 2) propagates
out of the loop uncaught (`error`). -/
def lagEntryE (x y : List ℚ) (lag : ℤ) : Except Unit (Option ℚ) :=
  if lag = 0 then pearsonE x y
  else if 0 < lag then
    if lag < (x.length : ℤ) then
      pearsonE (x.take (x.length - lag.toNat)) (y.drop lag.toNat)
    else Except.ok none
  else
    if -lag < (y.length : ℤ) then
      pearsonE (x.drop (-lag).toNat) (y.take (y.length - (-lag).toNat))
    else Except.ok none

/-- Collapse an exception to the NaN marker: the projection used for the
crash-free value table (sound only at inputs where no lag raises; the
agreement lemma below makes that explicit). -/
def exceptToNan (r : Except Unit (Option ℚ)) : Option ℚ :=
  match r with
  | Except.ok v => v
  | Except.error _ => none

/-- The recorded per-lag value in the crash-free case. -/
def lagEntry (x y : List ℚ) (lag : ℤ) : Option ℚ :=
  exceptToNan (lagEntryE x y lag)

/-- The lags `-max_lag, ..., +max_lag` in iteration (insertion) order. -/
def lagRange (maxLag : ℕ) : List ℤ :=
  (List.range (2 * maxLag + 1)).map (fun i => (i : ℤ) - maxLag)

/-- The lag loop run sequentially over a list of lags: the first raising
lag aborts the whole call (the exception propagates and the partial dict is
discarded), otherwise every entry is recorded in order. -/
def crossLoop (x y : List ℚ) : List ℤ → Except Unit (List (ℤ × Option ℚ))
  | [] => Except.ok []
  | l :: ls =>
    match lagEntryE x y l with
    | Except.error e => Except.error e
    | Except.ok v =>
      match crossLoop x y ls with
      | Except.error e => Except.error e
      | Except.ok t => Except.ok ((l, v) :: t)

/-- `calculate_cross_correlation`, exceptions included: truncate both
series to the common length, then run the lag loop over
`-max_lag, ..., +max_lag`. -/
def calculateCrossCorrelationE (x y : List ℚ) (maxLag : ℕ) :
    Except Unit (List (ℤ × Option ℚ)) :=
  let m := min x.length y.length
  crossLoop (x.take m) (y.take m) (lagRange maxLag)

/-- The value table of `calculate_cross_correlation` in the crash-free
case: one entry per lag in ascending lag order.  By
`calculateCrossCorrelationE_ok` below this is the returned table whenever
no lag raises, which holds at every concrete input used in the statements
about it. -/
def calculateCrossCorrelation (x y : List ℚ) (maxLag : ℕ) : List (ℤ × Option ℚ) :=
  let m := min x.length y.length
  (lagRange maxLag).map (fun l => (l, lagEntry (x.take m) (y.take m) l))

lemma crossLoop_ok (x y : List ℚ) : ∀ (ls : List ℤ),
    (∀ l ∈ ls, lagEntryE x y l ≠ Except.error ()) →
    crossLoop x y ls = Except.ok (ls.map (fun l => (l, lagEntry x y l))) := by
  intro ls
  induction ls with
  | nil => intro _; rfl
  | cons l ls ih =>
    intro h
    simp only [crossLoop]
    cases he : lagEntryE x y l with
    | error e =>
      exact absurd he (by simpa using h l (List.mem_cons_self _ _))
    | ok v =>
      rw [ih (fun l2 hl2 => h l2 (List.mem_cons.mpr (Or.inr hl2)))]
      simp [lagEntry, exceptToNan, he]

/-- When no lag in range raises, the exception-aware analyzer returns
exactly the crash-free value table. -/
lemma calculateCrossCorrelationE_ok (x y : List ℚ) (maxLag : ℕ)
    (h : ∀ l ∈ lagRange maxLag,
      lagEntryE (x.take (min x.length y.length)) (y.take (min x.length y.length)) l
        ≠ Except.error ()) :
    calculateCrossCorrelationE x y maxLag
      = Except.ok (calculateCrossCorrelation x y maxLag) := by
  unfold calculateCrossCorrelationE calculateCrossCorrelation
  exact crossLoop_ok _ _ _ h

/-- Number of paired samples available at a lag. -/
def overlapLen (x y : List ℚ) (lag : ℤ) : ℕ :=
  min (x.length - lag.natAbs) (y.length - lag.natAbs)

/-- Python float comparison `corr_next > corr_cur` as used by
`max(cross_corr.keys(), key=...)`: any comparison involving NaN (`none`)
is false. -/
def optGT : Option ℚ → Option ℚ → Bool
  | some a, some b => a > b
  | _, _ => false

/-- One step of Python `max` with a key function: the current item is
replaced only when the next key is strictly greater, so the first maximal
item wins. -/
def pickBetter (cur next : ℤ × Option ℚ) : ℤ × Option ℚ :=
  if optGT next.2 cur.2 then next else cur

/-- `max(cross_corr.keys(), key=lambda k: cross_corr[k]['correlation'])`
over the lag table in its insertion (ascending lag) order. -/
def pyBestEntry : List (ℤ × Option ℚ) → ℤ × Option ℚ
  | [] => (0, none)
  | h :: t => t.foldl pickBetter h

/-- The selected best lag (lines 511-513 and 714-716). -/
def pyBestLag (l : List (ℤ × Option ℚ)) : ℤ := (pyBestEntry l).1

/-! ## Claim C2: first-match assignment in catalog order -/

lemma findFirst_eq_spec (cat : List CatEntry) (la lo : ℚ) :
    findFirstDistrict cat la lo = specFirstMatch cat la lo := by
  induction cat with
  | nil => rfl
  | cons c rest ih => simp [findFirstDistrict, specFirstMatch, ih]

lemma specFirstMatch_growth_lat0 (lo : ℚ) :
    specFirstMatch growthCatalog 0 lo = "Other" := by
  norm_num [specFirstMatch, growthCatalog, containsBB]

lemma specFirstMatch_growth_lon0 (la : ℚ) :
    specFirstMatch growthCatalog la 0 = "Other" := by
  norm_num [specFirstMatch, growthCatalog, containsBB]

lemma specFirstMatch_density_lat0 (lo : ℚ) :
    specFirstMatch densityCatalog 0 lo = "Other" := by
  norm_num [specFirstMatch, densityCatalog, containsBB]

lemma specFirstMatch_density_lon0 (la : ℚ) :
    specFirstMatch densityCatalog la 0 = "Other" := by
  norm_num [specFirstMatch, densityCatalog, containsBB]

lemma assignDistrictCode_eq_spec (cat : List CatEntry)
    (h0a : ∀ lo : ℚ, specFirstMatch cat 0 lo = "Other")
    (h0b : ∀ la : ℚ, specFirstMatch cat la 0 = "Other") (la lo : ℚ) :
    assignDistrictCode cat (some la) (some lo) = specFirstMatch cat la lo := by
  by_cases hla : la = 0
  · subst hla; simp [assignDistrictCode, pyTruthy, h0a]
  · by_cases hlo : lo = 0
    · subst hlo; simp [assignDistrictCode, pyTruthy, h0b]
    · simp [assignDistrictCode, pyTruthy, hla, hlo, findFirst_eq_spec]

/-- C2: for every entity with present coordinates, the code assignment on
both Berlin catalogs equals the spec first-match rule — the catalog is
walked in declared order, the first containing bounding box (bounds
inclusive) wins, overlaps are resolved by catalog order, and an entity
contained in no box gets `"Other"`; and the assignment of an entity list is
row-independent, so permuting the input permutes the output accordingly. -/
theorem assignment_first_match_spec :
    (∀ la lo : ℚ,
      assignDistrictCode growthCatalog (some la) (some lo) =
          specFirstMatch growthCatalog la lo ∧
      assignDistrictCode densityCatalog (some la) (some lo) =
          specFirstMatch densityCatalog la lo) ∧
    (∀ l₁ l₂ : List Entity, l₁.Perm l₂ →
      (assignAll growthCatalog l₁).Perm (assignAll growthCatalog l₂) ∧
      (assignAll densityCatalog l₁).Perm (assignAll densityCatalog l₂)) := by
  constructor
  · intro la lo
    exact ⟨assignDistrictCode_eq_spec _ specFirstMatch_growth_lat0
        specFirstMatch_growth_lon0 la lo,
      assignDistrictCode_eq_spec _ specFirstMatch_density_lat0
        specFirstMatch_density_lon0 la lo⟩
  · intro l₁ l₂ h
    exact ⟨h.map _, h.map _⟩

/-- Witness for C2 at concrete inputs. -/
theorem assignment_first_match_spec_witness :
    assignDistrictCode growthCatalog (some 52.53) (some 13.41) =
        specFirstMatch growthCatalog 52.53 13.41 ∧
    (assignAll densityCatalog
        [⟨"a", some 52.53, some 13.41⟩, ⟨"b", none, some 1⟩]).Perm
      (assignAll densityCatalog
        [⟨"b", none, some 1⟩, ⟨"a", some 52.53, some 13.41⟩]) :=
  ⟨(assignment_first_match_spec.1 52.53 13.41).1,
   (assignment_first_match_spec.2 _ _ (List.Perm.swap _ _ _)).2⟩

/-! ## Claim C3: the backward value formula -/

/-- C3: for every year y strictly before the present year 2024 in the
simulated range, the stored density of a simulated district at y equals
`current / (1 + effective_rate) ^ (2024 - y)` floored at 0 (and rounded to 4
digits for storage), where the effective rate is the base rate times the
phase multiplier for y (1.3 in peak years, 1.0 otherwise) times the noise
factor drawn for that year (draw index 2023 - y of the stream slice of this
district). -/
theorem synth_backward_formula (name : String) (bb : Bounds) (area pop cur : ℚ)
    (curCount : ℤ) (c : Ctx) (noise : ℕ → ℚ) (y : ℤ)
    (h1 : 2014 ≤ y) (h2 : y ≤ 2023) :
    densityAt (simulateHistorical [⟨name, bb, area, pop⟩]
        (fun _ => some c) (fun _ => (cur, curCount)) noise) name y
      = some (pyRound 4 (max 0 (cur /
          (1 + c.base * (if y ∈ c.peaks then 1.3 else 1) * noise (2023 - y).toNat)
            ^ (2024 - y).toNat))) := by
  interval_cases y <;>
    simp [simulateHistorical, simGo, simDistrict, simYears, yearsRev, applyYoY,
      applyYoYGo, densityAt, histDensity, List.find?] <;>
    norm_num

/-- Witness for C3: the concrete spec scenario — current density 0.5
(5 entities on 10 km^2), base rate 0.10, no peak years, unit noise (zero
volatility); three years back from 2024 the value is
0.5 / 1.1 ^ 3 = 0.37565..., stored as 0.3757. -/
theorem synth_backward_formula_witness :
    (2014 : ℤ) ≤ 2021 ∧
    densityAt (simulateHistorical [⟨"A", ⟨0, 0, 0, 0⟩, 10, 0⟩]
        (fun _ => some ⟨1/10, []⟩) (fun _ => (1/2, 5)) (fun _ => 1)) "A" 2021
      = some (3757/10000) :=
  ⟨by decide,
    (synth_backward_formula "A" ⟨0, 0, 0, 0⟩ 10 0 (1/2) 5 ⟨1/10, []⟩
        (fun _ => 1) 2021 (by decide) (by decide)).trans (by decide)⟩

/-! ## Claim C1: noise keying and order dependence -/

/-- C1 counterexample: with the same noise stream (same seed), the same
growth profile and the same per-region current data, swapping the catalog
order of regions A and B changes the value simulated for region A at year
2023 (0.9091 versus 0.4762): the noise used for (region, year) is taken
from the single global stream by processing position, so it is not a
function of (seed, region_name, year), and the output is not independent of
the region processing order. -/
theorem synth_order_dependent_cex :
    densityAt (simulateHistorical
        [⟨"A", ⟨0, 0, 0, 0⟩, 1, 0⟩, ⟨"B", ⟨0, 0, 0, 0⟩, 1, 0⟩]
        (fun _ => some ⟨1/10, []⟩) (fun _ => (1, 1)) (fun n => 1 + n)) "A" 2023
      = some (9091/10000) ∧
    densityAt (simulateHistorical
        [⟨"B", ⟨0, 0, 0, 0⟩, 1, 0⟩, ⟨"A", ⟨0, 0, 0, 0⟩, 1, 0⟩]
        (fun _ => some ⟨1/10, []⟩) (fun _ => (1, 1)) (fun n => 1 + n)) "A" 2023
      = some (4762/10000) ∧
    (9091/10000 : ℚ) ≠ 4762/10000 :=
  ⟨by decide, by decide, by decide⟩

lemma simYears_congr (name : String) (area cur : ℚ) (curCount : ℤ) (c : Ctx)
    (n₁ n₂ : ℕ → ℚ) : ∀ (ys : List ℤ) (k : ℕ),
    (∀ j, k ≤ j → j < k + (ys.filter (fun y => y ≠ 2024)).length → n₁ j = n₂ j) →
    simYears name area cur curCount c n₁ ys k =
      simYears name area cur curCount c n₂ ys k := by
  intro ys
  induction ys with
  | nil => intro k _; rfl
  | cons y ys ih =>
    intro k h
    by_cases hy : y = 2024
    · subst hy
      have hlen : ((2024 :: ys).filter (fun z => z ≠ 2024)).length =
          (ys.filter (fun z => z ≠ 2024)).length := by
        simp [List.filter_cons]
      simp only [simYears, if_pos rfl]
      exact congrArg _ (ih k (fun j hj1 hj2 => h j hj1 (by omega)))
    · have hlen : ((y :: ys).filter (fun z => z ≠ 2024)).length =
          (ys.filter (fun z => z ≠ 2024)).length + 1 := by
        simp [List.filter_cons, hy]
      simp only [simYears, if_neg hy]
      have hk : n₁ k = n₂ k := h k le_rfl (by omega)
      rw [hk]
      exact congrArg _ (ih (k + 1) (fun j hj1 hj2 => h j (by omega) (by omega)))

lemma simGo_congr (ctxOf : String → Option Ctx) (curOf : String → ℚ × ℤ)
    (n₁ n₂ : ℕ → ℚ) : ∀ (cat : List CatEntry) (c0 : ℕ),
    (∀ j, c0 ≤ j → j < c0 + 10 * ctxCount cat ctxOf → n₁ j = n₂ j) →
    simGo cat ctxOf curOf n₁ c0 = simGo cat ctxOf curOf n₂ c0 := by
  intro cat
  induction cat with
  | nil => intro c0 _; rfl
  | cons c rest ih =>
    intro c0 h
    simp only [simGo]
    cases hc : ctxOf c.name with
    | none =>
      have hcnt : ctxCount (c :: rest) ctxOf = ctxCount rest ctxOf := by
        simp [ctxCount, List.filter_cons, hc]
      apply ih
      intro j hj1 hj2
      exact h j hj1 (by omega)
    | some k =>
      have hcnt : ctxCount (c :: rest) ctxOf = ctxCount rest ctxOf + 1 := by
        simp [ctxCount, List.filter_cons, hc]
      have hfl : (yearsRev.filter (fun y => y ≠ 2024)).length = 10 := by decide
      have h1 : simDistrict c.name c.area (curOf c.name).1 (curOf c.name).2 k n₁ c0 =
          simDistrict c.name c.area (curOf c.name).1 (curOf c.name).2 k n₂ c0 := by
        unfold simDistrict
        exact congrArg applyYoY (congrArg List.reverse
          (simYears_congr _ _ _ _ _ _ _ yearsRev c0
            (fun j hj1 hj2 => h j hj1 (by omega))))
      have h2 := ih (c0 + 10) (fun j hj1 hj2 => h j (by omega) (by omega))
      simp only [h1, h2]

/-- C1 amended: the simulation output is a deterministic function of the
seed and the ordered inputs — it depends on the noise stream only through
its first `10 * (number of simulated districts)` draws, so two runs with
the same seed, the same catalog order and the same inputs are bit-identical
(while, by the counterexample, reordering regions changes the output). -/
theorem synth_seed_deterministic (cat : List CatEntry)
    (ctxOf : String → Option Ctx) (curOf : String → ℚ × ℤ) (n₁ n₂ : ℕ → ℚ)
    (h : ∀ j, j < 10 * ctxCount cat ctxOf → n₁ j = n₂ j) :
    simulateHistorical cat ctxOf curOf n₁ = simulateHistorical cat ctxOf curOf n₂ := by
  unfold simulateHistorical
  apply simGo_congr
  intro j hj1 hj2
  exact h j (by omega)

/-- Witness for the amended C1: two streams that agree on the 10 consumed
draws give identical output for a one-district catalog. -/
theorem synth_seed_deterministic_witness :
    simulateHistorical [⟨"A", ⟨0, 0, 0, 0⟩, 1, 0⟩] (fun _ => some ⟨1/10, []⟩)
        (fun _ => (1, 1)) (fun j => if j < 10 then 1 else 5)
      = simulateHistorical [⟨"A", ⟨0, 0, 0, 0⟩, 1, 0⟩] (fun _ => some ⟨1/10, []⟩)
        (fun _ => (1, 1)) (fun _ => 1) :=
  synth_seed_deterministic _ _ _ _ _ (by
    intro j hj
    have h10 : 10 * ctxCount [⟨"A", ⟨0, 0, 0, 0⟩, 1, 0⟩]
        (fun _ => some ⟨1/10, []⟩) = 10 := by decide
    have : j < 10 := by omega
    simp [this])

/-! ## Claims C6 and C7: growth metrics -/

lemma mem_uniqListGo : ∀ (l seen : List String) (x : String),
    x ∈ uniqListGo seen l ↔ x ∈ l ∧ x ∉ seen := by
  intro l
  induction l with
  | nil => simp [uniqListGo]
  | cons a l ih =>
    intro seen x
    by_cases ha : a ∈ seen
    · simp only [uniqListGo, if_pos ha, ih, List.mem_cons]
      constructor
      · rintro ⟨hx, hn⟩; exact ⟨Or.inr hx, hn⟩
      · rintro ⟨rfl | hx, hn⟩
        · exact absurd ha hn
        · exact ⟨hx, hn⟩
    · simp only [uniqListGo, if_neg ha, List.mem_cons, ih]
      constructor
      · rintro (rfl | ⟨hx, hn⟩)
        · exact ⟨Or.inl rfl, ha⟩
        · exact ⟨Or.inr hx, fun hs => hn (Or.inr hs)⟩
      · rintro ⟨rfl | hx, hn⟩
        · exact Or.inl rfl
        · by_cases hxa : x = a
          · exact Or.inl hxa
          · exact Or.inr ⟨hx, fun hs => hs.elim hxa hn⟩

lemma nodup_uniqListGo : ∀ (l seen : List String), (uniqListGo seen l).Nodup := by
  intro l
  induction l with
  | nil => intro seen; simp [uniqListGo]
  | cons a l ih =>
    intro seen
    by_cases ha : a ∈ seen
    · simpa [uniqListGo, ha] using ih seen
    · simp only [uniqListGo, if_neg ha, List.nodup_cons]
      refine ⟨fun hmem => ?_, ih _⟩
      exact ((mem_uniqListGo l (a :: seen) a).mp hmem).2 (List.mem_cons_self a seen)

lemma mem_uniqList (l : List String) (x : String) : x ∈ uniqList l ↔ x ∈ l := by
  simp [uniqList, mem_uniqListGo]

lemma nodup_uniqList (l : List String) : (uniqList l).Nodup := nodup_uniqListGo _ _

lemma insertByYear_perm (r : SimRow) (l : List SimRow) :
    (insertByYear r l).Perm (r :: l) := by
  induction l with
  | nil => exact List.Perm.refl _
  | cons x xs ih =>
    simp only [insertByYear]
    split
    · exact List.Perm.refl _
    · exact (ih.cons x).trans (List.Perm.swap r x xs)

lemma sortByYear_perm (l : List SimRow) : (sortByYear l).Perm l := by
  induction l with
  | nil => exact List.Perm.refl _
  | cons r rs ih => exact (insertByYear_perm r (sortByYear rs)).trans (ih.cons r)

lemma sortByYear_length (l : List SimRow) : (sortByYear l).length = l.length :=
  (sortByYear_perm l).length_eq

lemma find?_filterMap_of_mem : ∀ (names : List String) (f : String → Option Metrics),
    (∀ d' m, f d' = some m → m.district = d') → ∀ (d : String) (mm : Metrics),
    names.Nodup → d ∈ names → f d = some mm →
    (names.filterMap f).find? (fun m => m.district == d) = some mm := by
  intro names
  induction names with
  | nil => intro f _ d mm _ hd; simp at hd
  | cons n ns ih =>
    intro f hdist d mm hnd hd hf
    rcases List.mem_cons.mp hd with rfl | hdmem
    · simp only [List.filterMap_cons, hf]
      have : mm.district = d := hdist d mm hf
      simp [List.find?, this]
    · have hne : n ≠ d := fun e => (List.nodup_cons.mp hnd).1 (e ▸ hdmem)
      simp only [List.filterMap_cons]
      cases hfn : f n with
      | none => exact ih f hdist d mm (List.nodup_cons.mp hnd).2 hdmem hf
      | some m2 =>
        rw [List.find?_cons_of_neg]
        · exact ih f hdist d mm (List.nodup_cons.mp hnd).2 hdmem hf
        · simp [hdist n m2 hfn, hne]

lemma calc_entry_of_long (rows : List SimRow) (d : String)
    (h : 2 ≤ (rows.filter (fun r => r.district == d)).length) :
    (calcGrowthMetrics rows).find? (fun m => m.district == d)
      = some (metricsOf d (sortByYear (rows.filter (fun r => r.district == d)))) := by
  have hmem : d ∈ uniqList (rows.map (·.district)) := by
    rw [mem_uniqList, List.mem_map]
    have hpos : 0 < (rows.filter (fun r => r.district == d)).length := by omega
    obtain ⟨r, hr⟩ := List.exists_mem_of_length_pos hpos
    have hr2 := List.mem_filter.mp hr
    exact ⟨r, hr2.1, by simpa using hr2.2⟩
  have hlen : ¬ ((sortByYear (rows.filter (fun r => r.district == d))).length < 2) := by
    rw [sortByYear_length]; omega
  unfold calcGrowthMetrics
  refine find?_filterMap_of_mem _ _ ?_ d _ (nodup_uniqList _) hmem ?_
  · intro d' m hm
    by_cases hl : (sortByYear (rows.filter (fun r => r.district == d'))).length < 2
    · simp [hl] at hm
    · simp only [if_neg hl, Option.some.injEq] at hm
      rw [← hm]; rfl
  · simp only [if_neg hlen]

/-- C6 counterexample: for a one-row input the single district is dropped
by `continue`, leaving the metrics list empty with no InsufficientData
signal of any kind — and the step then does not even return that empty
table: the final `sort_values('cagr')` on the column-less empty frame
raises an uncaught KeyError, so the growth-summary step crashes with an
unrelated error instead of reporting the insufficiency. -/
theorem growth_summary_single_point_cex :
    calcGrowthMetrics [⟨"A", 2024, 1, 1, 0⟩] = [] ∧
    calcGrowthMetricsE [⟨"A", 2024, 1, 1, 0⟩] = Except.error () :=
  ⟨by decide, by decide⟩

/-- C6 amended: a series with fewer than 2 points is silently skipped by
`continue` — it gets no metrics row in the `growth_metrics` list, so no
fabricated 0% summary and no InsufficientData signal; whenever the step
completes at all, that district is absent from the returned table; and
when every district in the input is that short, the metrics list is empty
and the final `sort_values('cagr')` raises an uncaught KeyError, so the
step crashes rather than reporting insufficiency. -/
theorem growth_summary_skips_short (rows : List SimRow) (d : String)
    (h : (rows.filter (fun r => r.district == d)).length < 2) :
    (calcGrowthMetrics rows).find? (fun m => m.district == d) = none ∧
    (∀ ms, calcGrowthMetricsE rows = Except.ok ms →
      ms.find? (fun m => m.district == d) = none) ∧
    ((∀ d2 ∈ rows.map (fun r => r.district),
        (rows.filter (fun r => r.district == d2)).length < 2) →
      calcGrowthMetricsE rows = Except.error ()) := by
  have h1 : (calcGrowthMetrics rows).find? (fun m => m.district == d) = none := by
    rw [List.find?_eq_none]
    intro m hm
    unfold calcGrowthMetrics at hm
    obtain ⟨d2, hd2, hfd⟩ := List.mem_filterMap.mp hm
    by_cases hl : (sortByYear (rows.filter (fun r => r.district == d2))).length < 2
    · simp [hl] at hfd
    · simp only [if_neg hl, Option.some.injEq] at hfd
      have hdm : m.district = d2 := by rw [← hfd]; rfl
      rw [sortByYear_length] at hl
      simp only [beq_iff_eq, hdm]
      intro hdd
      subst hdd
      omega
  refine ⟨h1, ?_, ?_⟩
  · intro ms hok
    unfold calcGrowthMetricsE at hok
    by_cases hemp : calcGrowthMetrics rows = []
    · rw [if_pos hemp] at hok
      cases hok
    · rw [if_neg hemp] at hok
      rw [← Except.ok.inj hok]
      exact h1
  · intro hall
    have htab : calcGrowthMetrics rows = [] := by
      unfold calcGrowthMetrics
      rw [List.filterMap_eq_nil_iff]
      intro d2 hd2
      have hd2m : d2 ∈ rows.map (fun r => r.district) := (mem_uniqList _ _).mp hd2
      have hlen := hall d2 hd2m
      have hsl : (sortByYear (rows.filter (fun r => r.district == d2))).length < 2 := by
        rw [sortByYear_length]; exact hlen
      simp [hsl]
    unfold calcGrowthMetricsE
    rw [if_pos htab]

/-- Witness for the amended C6: a one-row table has no metrics entry for
its district, and the step as a whole raises. -/
theorem growth_summary_skips_short_witness :
    (calcGrowthMetrics [⟨"B", 2024, 1, 1, 0⟩]).find? (fun m => m.district == "B")
      = none ∧
    calcGrowthMetricsE [⟨"B", 2024, 1, 1, 0⟩] = Except.error () :=
  ⟨(growth_summary_skips_short [⟨"B", 2024, 1, 1, 0⟩] "B" (by decide)).1,
   (growth_summary_skips_short [⟨"B", 2024, 1, 1, 0⟩] "B" (by decide)).2.2 (by decide)⟩

/-- C7 counterexample: a two-point series with densities 1 then 2 has yoy
column [0.0, 1.0] (the first, undefined entry is stored as 0.0); the
reported avg_annual_growth is their mean over all entries, 0.5, while the
mean excluding the first entry is 1.0 — the claimed exclusion does not
happen. -/
theorem avg_growth_excl_first_cex :
    ((calcGrowthMetrics [⟨"A", 2023, 1, 1, 0⟩, ⟨"A", 2024, 2, 2, 1⟩]).find?
        (fun m => m.district == "A")).map (·.avgAnnualGrowth) = some (1/2) ∧
    specAvgYoYExclFirst [⟨"A", 2023, 1, 1, 0⟩, ⟨"A", 2024, 2, 2, 1⟩] "A" = 1 ∧
    (1/2 : ℚ) ≠ 1 :=
  ⟨by decide, by decide, by decide⟩

/-- C7 amended: for every series with at least 2 points, the reported
avg_annual_growth is the mean of the whole yoy column — the first year's
undefined rate, stored as 0.0, is included, so the sum of the defined rates
is divided by n rather than n - 1 (rounded to 4 digits for the report). -/
theorem avg_growth_mean_over_all_rows (rows : List SimRow) (d : String)
    (h : 2 ≤ (rows.filter (fun r => r.district == d)).length) :
    ((calcGrowthMetrics rows).find? (fun m => m.district == d)).map (·.avgAnnualGrowth)
      = some (pyRound 4 (((rows.filter (fun r => r.district == d)).map (·.yoy)).sum
          / (rows.filter (fun r => r.district == d)).length)) := by
  rw [calc_entry_of_long rows d h]
  have hperm := sortByYear_perm (rows.filter (fun r => r.district == d))
  have hsum : ((sortByYear (rows.filter (fun r => r.district == d))).map (·.yoy)).sum
      = ((rows.filter (fun r => r.district == d)).map (·.yoy)).sum :=
    (hperm.map _).sum_eq
  have hlen := sortByYear_length (rows.filter (fun r => r.district == d))
  simp only [metricsOf, hsum, hlen]
  rfl

/-- Witness for the amended C7. -/
theorem avg_growth_mean_over_all_rows_witness :
    ((calcGrowthMetrics [⟨"B", 2023, 2, 2, 0⟩, ⟨"B", 2024, 3, 3, 1/2⟩]).find?
        (fun m => m.district == "B")).map (·.avgAnnualGrowth) = some (1/4) :=
  (avg_growth_mean_over_all_rows _ _ (by decide)).trans (by decide)

/-! ## Claims C8 and C9: the stats table and the Other bucket -/

lemma find?_stat_other (cat : List CatEntry) (labels : List String)
    (hname : ∀ c ∈ cat, c.name ≠ "Other") (hpos : 0 < labels.count "Other") :
    (districtStats cat labels).find? (fun s => s.district == "Other")
      = some { district := "Other", count := labels.count "Other",
               area := berlinTotalArea - sumAreas cat,
               density := if berlinTotalArea - sumAreas cat > 0 then
                   pyRound 3 ((labels.count "Other" : ℚ) /
                     (berlinTotalArea - sumAreas cat))
                 else 0,
               pop := 800000,
               per100k := pyRound 2 ((labels.count "Other" : ℚ) / 800000 * 100000) } := by
  unfold districtStats
  rw [List.find?_append]
  have h1 : (cat.map (statRowOf labels)).find? (fun s => s.district == "Other")
      = none := by
    rw [List.find?_eq_none]
    intro s hs
    obtain ⟨c, hc, rfl⟩ := List.mem_map.mp hs
    simpa [statRowOf] using hname c hc
  rw [h1]
  simp [otherStatRows, hpos]

/-- C9 counterexample: with a catalog whose areas sum past the 891.7 city
total, the recorded `"Other"` area is 891.7 - 1000 = -108.3 — negative, so
it is not clamped below by any positive epsilon; the density is 0 because
of the `if other_area > 0` guard, not because of an area clamp. -/
theorem other_area_negative_cex :
    ((districtStats [⟨"Big", ⟨0, 1, 0, 1⟩, 1000, 1000⟩]
        (labelsOf [⟨"Big", ⟨0, 1, 0, 1⟩, 1000, 1000⟩]
          [⟨"e1", some 52.5, some 13.4⟩])).find?
        (fun s => s.district == "Other")).map (fun s => (s.area, s.density))
      = some (-1083/10, 0) ∧
    (-1083/10 : ℚ) < 0 :=
  ⟨by decide, by decide⟩

/-- C9 amended: the `"Other"` area is exactly 891.7 minus the sum of the
cataloged areas, with no lower clamp (it can be zero or negative); the
division for its density is guarded instead — when the area is not positive
the density is reported as 0, so no division by a nonpositive area occurs. -/
theorem other_area_unclamped (cat : List CatEntry) (labels : List String)
    (h1 : ∀ c ∈ cat, c.name ≠ "Other") (h2 : 0 < labels.count "Other") :
    ((districtStats cat labels).find? (fun s => s.district == "Other")).map
        (fun s => (s.area, s.density))
      = some (berlinTotalArea - sumAreas cat,
          if berlinTotalArea - sumAreas cat > 0 then
            pyRound 3 ((labels.count "Other" : ℚ) / (berlinTotalArea - sumAreas cat))
          else 0) := by
  rw [find?_stat_other cat labels h1 h2]
  rfl

/-- Witness for the amended C9. -/
theorem other_area_unclamped_witness :
    ((districtStats [⟨"Small", ⟨0, 1, 0, 1⟩, 100, 0⟩] ["Other"]).find?
        (fun s => s.district == "Other")).map (fun s => (s.area, s.density))
      = some (7917/10, 1/1000) :=
  (other_area_unclamped _ _ (by decide) (by decide)).trans (by decide)

/-- C8 counterexample: an entity with a missing longitude is not excluded
and not counted as dropped — it keeps the fallback label `"Other"` and is
included in the `"Other"` bucket's winery count (count 1 here); no
dropped-entity counter exists anywhere in the output. -/
theorem invalid_coords_cex :
    assignLabel densityCatalog ⟨"e1", some 52.5, none⟩ = "Other" ∧
    ((districtStats densityCatalog
        (labelsOf densityCatalog [⟨"e1", some 52.5, none⟩])).find?
        (fun s => s.district == "Other")).map (·.count) = some 1 :=
  ⟨by decide, by decide⟩

/-- C8 amended: every entity whose coordinates fail the Python truthiness
guard (missing, or zero) is kept: it is labelled `"Other"`, it makes the
`"Other"` bucket nonempty, and the `"Other"` stats row counts exactly the
entities labelled `"Other"` — nothing is excluded and nothing tracks a
dropped count. -/
theorem invalid_coords_in_other_bucket (l : List Entity) (e : Entity)
    (he : e ∈ l) (hc : ¬(pyTruthy e.lat = true ∧ pyTruthy e.lon = true)) :
    assignLabel densityCatalog e = "Other" ∧
    0 < (labelsOf densityCatalog l).count "Other" ∧
    ((districtStats densityCatalog (labelsOf densityCatalog l)).find?
        (fun s => s.district == "Other")).map (·.count)
      = some ((labelsOf densityCatalog l).count "Other") := by
  have hlab : assignLabel densityCatalog e = "Other" := by
    unfold assignLabel assignDistrictCode
    rw [if_neg hc]
  have hmem : "Other" ∈ labelsOf densityCatalog l :=
    List.mem_map.mpr ⟨e, he, hlab⟩
  have hpos : 0 < (labelsOf densityCatalog l).count "Other" :=
    List.count_pos_iff.mpr hmem
  refine ⟨hlab, hpos, ?_⟩
  rw [find?_stat_other densityCatalog _ (by decide) hpos]
  rfl

/-- Witness for the amended C8. -/
theorem invalid_coords_in_other_bucket_witness :
    assignLabel densityCatalog ⟨"w", some 13.4, none⟩ = "Other" ∧
    0 < (labelsOf densityCatalog [⟨"w", some 13.4, none⟩]).count "Other" :=
  ⟨(invalid_coords_in_other_bucket [⟨"w", some 13.4, none⟩] ⟨"w", some 13.4, none⟩
      (by decide) (by decide)).1,
   (invalid_coords_in_other_bucket [⟨"w", some 13.4, none⟩] ⟨"w", some 13.4, none⟩
      (by decide) (by decide)).2.1⟩

/-! ## Claim C4: undefined markers and small overlaps -/

/-- C4 counterexample: series of length 3 at lag 1 have an overlap of only
2 paired samples — below the claimed 3-sample threshold — yet the analyzer
records a defined coefficient (a perfect r = 1, encoded as 1), not an
undefined marker. -/
theorem small_overlap_defined_cex :
    List.lookup 1 (calculateCrossCorrelation [0, 1, 2] [0, 1, 2] 1)
      = some (some 1) ∧
    overlapLen [0, 1, 2] [0, 1, 2] 1 = 2 :=
  ⟨by decide, by decide⟩

/-- C4 amended: below 2 paired samples the analyzer never records a
defined coefficient, but the claimed uniform undefined marker is not what
happens either: when the code's `len > lag` guard fails (empty shifted
window) the NaN marker is recorded explicitly, while when the guard passes
with an overlap of 0 or 1 samples (reachable, e.g. length-3 series at
lag 2) `pearsonr` raises a `ValueError` that nothing catches and the whole
analysis crashes.  An overlap of exactly 2 samples yields a defined
(perfect) coefficient, as the counterexample shows; only overlaps of at
least 2 non-constant samples produce coefficients. -/
theorem lag_small_overlap_crash_or_nan (x y : List ℚ) (lag : ℤ)
    (h : overlapLen x y lag < 2) :
    lagEntryE x y lag =
      if lag = 0 ∨ (0 < lag ∧ lag < (x.length : ℤ)) ∨
          (lag < 0 ∧ -lag < (y.length : ℤ)) then
        Except.error ()
      else Except.ok none := by
  unfold overlapLen at h
  by_cases h0 : lag = 0
  · subst h0
    simp only [Int.natAbs_zero, Nat.sub_zero] at h
    have hc : (0 : ℤ) = 0 ∨ ((0 : ℤ) < 0 ∧ (0 : ℤ) < (x.length : ℤ)) ∨
        ((0 : ℤ) < 0 ∧ -(0 : ℤ) < (y.length : ℤ)) := Or.inl rfl
    rw [if_pos hc]
    unfold lagEntryE pearsonE
    rw [if_pos rfl]
    exact if_pos (by omega)
  · by_cases hpos : 0 < lag
    · by_cases hlt : lag < (x.length : ℤ)
      · have hc : lag = 0 ∨ (0 < lag ∧ lag < (x.length : ℤ)) ∨
            (lag < 0 ∧ -lag < (y.length : ℤ)) := Or.inr (Or.inl ⟨hpos, hlt⟩)
        rw [if_pos hc]
        unfold lagEntryE
        rw [if_neg h0, if_pos hpos, if_pos hlt]
        unfold pearsonE
        refine if_pos ?_
        have hx : (x.take (x.length - lag.toNat)).length
            = x.length - lag.toNat := by
          rw [List.length_take]; omega
        have hy : (y.drop lag.toNat).length = y.length - lag.toNat := by
          rw [List.length_drop]
        rw [hx, hy]; omega
      · have hnc : ¬(lag = 0 ∨ (0 < lag ∧ lag < (x.length : ℤ)) ∨
            (lag < 0 ∧ -lag < (y.length : ℤ))) := by omega
        rw [if_neg hnc]
        unfold lagEntryE
        rw [if_neg h0, if_pos hpos, if_neg hlt]
    · by_cases hlt : -lag < (y.length : ℤ)
      · have hneg : lag < 0 := by omega
        have hc : lag = 0 ∨ (0 < lag ∧ lag < (x.length : ℤ)) ∨
            (lag < 0 ∧ -lag < (y.length : ℤ)) := Or.inr (Or.inr ⟨hneg, hlt⟩)
        rw [if_pos hc]
        unfold lagEntryE
        rw [if_neg h0, if_neg hpos, if_pos hlt]
        unfold pearsonE
        refine if_pos ?_
        have hx : (x.drop (-lag).toNat).length = x.length - (-lag).toNat := by
          rw [List.length_drop]
        have hy : (y.take (y.length - (-lag).toNat)).length
            = y.length - (-lag).toNat := by
          rw [List.length_take]; omega
        rw [hx, hy]; omega
      · have hnc : ¬(lag = 0 ∨ (0 < lag ∧ lag < (x.length : ℤ)) ∨
            (lag < 0 ∧ -lag < (y.length : ℤ))) := by omega
        rw [if_neg hnc]
        unfold lagEntryE
        rw [if_neg h0, if_neg hpos, if_neg hlt]

/-- Witness for the amended C4: lag 2 on length-3 series passes the guard
with a single paired sample and the call raises (crash); lag 2 on length-2
series fails the guard and the NaN marker is recorded. -/
theorem lag_small_overlap_crash_or_nan_witness :
    lagEntryE [0, 1, 2] [0, 1, 2] 2 = Except.error () ∧
    lagEntryE [0, 1] [0, 1] 2 = Except.ok none :=
  ⟨(lag_small_overlap_crash_or_nan _ _ _ (by decide)).trans (by decide),
   (lag_small_overlap_crash_or_nan _ _ _ (by decide)).trans (by decide)⟩

/-! ## Claim C5: best-lag selection and tie-breaking -/

lemma optGT_irrefl (v : Option ℚ) : optGT v v = false := by
  cases v <;> simp [optGT]

lemma optGT_some_true {a b : ℚ} (h : optGT (some a) (some b) = true) : b < a := by
  simpa [optGT] using h

lemma optGT_some_false {a b : ℚ} (h : optGT (some a) (some b) = false) : a ≤ b := by
  simpa [optGT] using h

lemma optGT_eq_false_of_le {a b : ℚ} (h : a ≤ b) :
    optGT (some a) (some b) = false := by
  simpa [optGT] using h

lemma foldl_pickBetter_spec : ∀ (t : List (ℤ × Option ℚ)) (cur : ℤ × Option ℚ),
    (∀ e ∈ cur :: t, e.2.isSome = true) →
    (cur :: t).Pairwise (fun a b => a.1 < b.1) →
    (t.foldl pickBetter cur) ∈ cur :: t ∧
    (∀ e ∈ cur :: t, optGT e.2 (t.foldl pickBetter cur).2 = false) ∧
    (∀ e ∈ cur :: t, e.2 = (t.foldl pickBetter cur).2 →
      (t.foldl pickBetter cur).1 ≤ e.1) := by
  intro t
  induction t with
  | nil =>
    intro cur _ _
    refine ⟨List.mem_cons_self _ _, ?_, ?_⟩
    · intro e he
      rw [List.mem_singleton.mp he]
      exact optGT_irrefl _
    · intro e he _
      rw [List.mem_singleton.mp he]
      exact le_rfl
  | cons nxt t ih =>
    intro cur hdef hpw
    simp only [List.foldl_cons]
    obtain ⟨a, ha⟩ := Option.isSome_iff_exists.mp (hdef cur (List.mem_cons_self _ _))
    obtain ⟨b, hb⟩ := Option.isSome_iff_exists.mp
      (hdef nxt (List.mem_cons.mpr (Or.inr (List.mem_cons_self _ _))))
    by_cases hgt : optGT nxt.2 cur.2 = true
    · have hpb : pickBetter cur nxt = nxt := by simp [pickBetter, hgt]
      rw [hpb]
      have hdef2 : ∀ e ∈ nxt :: t, e.2.isSome = true :=
        fun e he => hdef e (List.mem_cons.mpr (Or.inr he))
      have hpw2 : (nxt :: t).Pairwise (fun a b => a.1 < b.1) :=
        (List.pairwise_cons.mp hpw).2
      obtain ⟨hm, hmax, hfirst⟩ := ih nxt hdef2 hpw2
      obtain ⟨c, hc⟩ := Option.isSome_iff_exists.mp (hdef2 _ hm)
      have hab : a < b := by
        rw [ha, hb] at hgt
        exact optGT_some_true hgt
      have hbc : b ≤ c := by
        have hx := hmax nxt (List.mem_cons_self _ _)
        rw [hb, hc] at hx
        exact optGT_some_false hx
      refine ⟨List.mem_cons.mpr (Or.inr hm), ?_, ?_⟩
      · intro e he
        rcases List.mem_cons.mp he with rfl | he'
        · rw [ha, hc]
          exact optGT_eq_false_of_le (le_of_lt (lt_of_lt_of_le hab hbc))
        · exact hmax e he'
      · intro e he hv
        rcases List.mem_cons.mp he with rfl | he'
        · rw [ha, hc] at hv
          exact absurd (Option.some.inj hv) (ne_of_lt (lt_of_lt_of_le hab hbc))
        · exact hfirst e he' hv
    · have hpb : pickBetter cur nxt = cur := by simp [pickBetter, hgt]
      rw [hpb]
      have hgt' : optGT nxt.2 cur.2 = false := by simpa using hgt
      have hdef2 : ∀ e ∈ cur :: t, e.2.isSome = true := by
        intro e he
        rcases List.mem_cons.mp he with rfl | he'
        · exact hdef e (List.mem_cons_self _ _)
        · exact hdef e (List.mem_cons.mpr (Or.inr (List.mem_cons.mpr (Or.inr he'))))
      have hpw2 : (cur :: t).Pairwise (fun a b => a.1 < b.1) := by
        rcases List.pairwise_cons.mp hpw with ⟨hcur, hrest⟩
        refine List.pairwise_cons.mpr ⟨?_, (List.pairwise_cons.mp hrest).2⟩
        intro e he
        exact hcur e (List.mem_cons.mpr (Or.inr he))
      obtain ⟨hm, hmax, hfirst⟩ := ih cur hdef2 hpw2
      obtain ⟨c, hc⟩ := Option.isSome_iff_exists.mp (hdef2 _ hm)
      have hba : b ≤ a := by
        rw [hb, ha] at hgt'
        exact optGT_some_false hgt'
      have hac : a ≤ c := by
        have hx := hmax cur (List.mem_cons_self _ _)
        rw [ha, hc] at hx
        exact optGT_some_false hx
      refine ⟨?_, ?_, ?_⟩
      · rcases List.mem_cons.mp hm with heq | hm'
        · rw [heq]; exact List.mem_cons_self _ _
        · exact List.mem_cons.mpr (Or.inr (List.mem_cons.mpr (Or.inr hm')))
      · intro e he
        rcases List.mem_cons.mp he with rfl | he'
        · exact hmax e (List.mem_cons_self _ _)
        · rcases List.mem_cons.mp he' with rfl | he''
          · rw [hb, hc]
            exact optGT_eq_false_of_le (le_trans hba hac)
          · exact hmax e (List.mem_cons.mpr (Or.inr he''))
      · intro e he hv
        rcases List.mem_cons.mp he with rfl | he'
        · exact hfirst e (List.mem_cons_self _ _) hv
        · rcases List.mem_cons.mp he' with rfl | he''
          · rw [hb, hc] at hv
            have hbceq : b = c := Option.some.inj hv
            have haceq : a = c := le_antisymm hac (hbceq ▸ hba)
            have hr := hfirst cur (List.mem_cons_self _ _) (by rw [ha, hc, haceq])
            have hcn : cur.1 < e.1 :=
              (List.pairwise_cons.mp hpw).1 e (List.mem_cons_self _ _)
            exact le_of_lt (lt_of_le_of_lt hr hcn)
          · exact hfirst e (List.mem_cons.mpr (Or.inr he'')) hv

/-- C5 counterexample: for x = y = [1,2,3,4,5] with max_lag 1 every lag in
{-1, 0, 1} has the same maximal correlation (a perfect r = 1), and the
selected best lag is -1 — even though lag 0 attains the same maximum with a
strictly smaller absolute value, refuting the smallest-absolute-lag
tie-break. -/
theorem best_lag_tie_cex :
    pyBestLag (calculateCrossCorrelation [1, 2, 3, 4, 5] [1, 2, 3, 4, 5] 1) = -1 ∧
    List.lookup (-1) (calculateCrossCorrelation [1, 2, 3, 4, 5] [1, 2, 3, 4, 5] 1)
      = List.lookup 0 (calculateCrossCorrelation [1, 2, 3, 4, 5] [1, 2, 3, 4, 5] 1) ∧
    (0 : ℤ).natAbs < (-1 : ℤ).natAbs :=
  ⟨by decide, by decide, by decide⟩

/-- C5 amended: over any lag table with defined correlations, listed in
strictly ascending lag order (as `calculate_cross_correlation` builds it),
Python max picks an entry of the table whose correlation no entry exceeds,
and among the entries tied at that maximum it picks the one with the
smallest lag — the most negative one, not the one with the smallest
absolute value. -/
theorem best_lag_first_max (l : List (ℤ × Option ℚ)) (cur : ℤ × Option ℚ)
    (tl : List (ℤ × Option ℚ)) (hl : l = cur :: tl)
    (hdef : ∀ e ∈ l, e.2.isSome = true)
    (hasc : l.Pairwise (fun a b => a.1 < b.1)) :
    pyBestEntry l ∈ l ∧
    (∀ e ∈ l, optGT e.2 (pyBestEntry l).2 = false) ∧
    (∀ e ∈ l, e.2 = (pyBestEntry l).2 → (pyBestEntry l).1 ≤ e.1) := by
  subst hl
  exact foldl_pickBetter_spec tl cur hdef hasc

/-- Witness for the amended C5: on the tied table of the counterexample the
selected entry is in the table and its lag is at most 0, the smallest-lag
behaviour (lag 0 carries the same correlation `some 1`). -/
theorem best_lag_first_max_witness :
    pyBestEntry (calculateCrossCorrelation [1, 2, 3, 4, 5] [1, 2, 3, 4, 5] 1) ∈
      calculateCrossCorrelation [1, 2, 3, 4, 5] [1, 2, 3, 4, 5] 1 ∧
    (pyBestEntry (calculateCrossCorrelation [1, 2, 3, 4, 5] [1, 2, 3, 4, 5] 1)).1 ≤ 0 :=
  ⟨(best_lag_first_max _ ((-1 : ℤ), some 1)
      [((0 : ℤ), some 1), ((1 : ℤ), some 1)] (by decide) (by decide) (by decide)).1,
   (best_lag_first_max _ ((-1 : ℤ), some 1)
      [((0 : ℤ), some 1), ((1 : ℤ), some 1)] (by decide) (by decide) (by decide)).2.2
     (0, some 1) (by decide) (by decide)⟩

/-! ## Claim C10: monotone synthetic series -/

/-- The value column produced by `genRows`: the running value before each
year, then the final end-state value. -/
def genValues (v : ℚ) : List ℚ → List ℚ
  | [] => [v]
  | r :: rs => v :: genValues (v * (1 + r)) rs

lemma genRows_map_value (name : String) : ∀ (rates : List ℚ) (v : ℚ) (yr : ℤ),
    (genRows name v rates yr).map (·.value) = genValues v rates := by
  intro rates
  induction rates with
  | nil => intro v yr; rfl
  | cons r rs ih => intro v yr; simp [genRows, genValues, ih]

lemma genRows_district (name : String) : ∀ (rates : List ℚ) (v : ℚ) (yr : ℤ)
    (row : TRow), row ∈ genRows name v rates yr → row.district = name := by
  intro rates
  induction rates with
  | nil =>
    intro v yr row hrow
    rw [List.mem_singleton.mp hrow]
  | cons r rs ih =>
    intro v yr row hrow
    rcases List.mem_cons.mp hrow with rfl | h
    · rfl
    · exact ih _ _ row h

lemma seriesFor_genRows_self (name : String) (rates : List ℚ) (v : ℚ) (yr : ℤ) :
    seriesFor (genRows name v rates yr) name = genValues v rates := by
  unfold seriesFor
  rw [List.filter_eq_self.mpr, genRows_map_value]
  intro row hrow
  simp [genRows_district name rates v yr row hrow]

lemma seriesFor_genRows_ne (name d : String) (h : d ≠ name) (rates : List ℚ)
    (v : ℚ) (yr : ℤ) : seriesFor (genRows name v rates yr) d = [] := by
  unfold seriesFor
  rw [List.filter_eq_nil_iff.mpr]
  · rfl
  · intro row hrow
    simp [genRows_district name rates v yr row hrow, Ne.symm h]

lemma genValues_head (rates : List ℚ) (v : ℚ) :
    ∃ t, genValues v rates = v :: t := by
  cases rates <;> exact ⟨_, rfl⟩

lemma genValues_chain : ∀ (rates : List ℚ) (v : ℚ), 0 ≤ v →
    (∀ r ∈ rates, 0 ≤ r) → List.Chain' (· ≤ ·) (genValues v rates) := by
  intro rates
  induction rates with
  | nil => intro v _ _; simp [genValues]
  | cons r rs ih =>
    intro v hv hr
    have hr0 : (0 : ℚ) ≤ r := hr r (List.mem_cons_self _ _)
    obtain ⟨t, ht⟩ := genValues_head rs (v * (1 + r))
    simp only [genValues]
    rw [ht, List.chain'_cons]
    constructor
    · calc v = v * 1 := (mul_one v).symm
        _ ≤ v * (1 + r) := mul_le_mul_of_nonneg_left (by linarith) hv
    · rw [← ht]
      exact ih (v * (1 + r)) (mul_nonneg hv (by linarith))
        (fun x hx => hr x (List.mem_cons.mpr (Or.inr hx)))

lemma effRatesRE_nonneg (p : REPat) (noise : ℕ → ℚ) (c0 : ℕ) :
    ∀ r ∈ effRatesRE p noise c0, 0 ≤ r := by
  intro r hr
  obtain ⟨i, _, rfl⟩ := List.mem_map.mp hr
  exact le_max_left 0 _

lemma effRatesWin_nonneg (p : WinPat) (noise : ℕ → ℚ) (c0 : ℕ) :
    ∀ r ∈ effRatesWin p noise c0, 0 ≤ r := by
  intro r hr
  obtain ⟨i, _, rfl⟩ := List.mem_map.mp hr
  exact le_max_left 0 _

lemma seriesFor_append (r1 r2 : List TRow) (d : String) :
    seriesFor (r1 ++ r2) d = seriesFor r1 d ++ seriesFor r2 d := by
  simp [seriesFor, List.filter_append]

lemma seriesFor_genAllRE_nil : ∀ (pats : List REPat) (noise : ℕ → ℚ) (c0 : ℕ)
    (d : String), d ∉ pats.map (·.name) →
    seriesFor (genAllRE pats noise c0) d = [] := by
  intro pats
  induction pats with
  | nil => intro noise c0 d _; rfl
  | cons p rest ih =>
    intro noise c0 d hd
    simp only [List.mem_map, List.map_cons, List.mem_cons, not_or] at hd
    simp only [genAllRE, seriesFor_append]
    rw [seriesFor_genRows_ne p.name d hd.1, ih noise _ d (by
      intro hmem
      exact hd.2 (by simpa using hmem))]
    rfl

lemma seriesFor_genAllWin_nil : ∀ (pats : List WinPat) (noise : ℕ → ℚ) (c0 : ℕ)
    (d : String), d ∉ pats.map (·.name) →
    seriesFor (genAllWin pats noise c0) d = [] := by
  intro pats
  induction pats with
  | nil => intro noise c0 d _; rfl
  | cons p rest ih =>
    intro noise c0 d hd
    simp only [List.mem_map, List.map_cons, List.mem_cons, not_or] at hd
    simp only [genAllWin, seriesFor_append]
    rw [seriesFor_genRows_ne p.name d hd.1, ih noise _ d (by
      intro hmem
      exact hd.2 (by simpa using hmem))]
    rfl

lemma chain_genAllRE : ∀ (pats : List REPat) (noise : ℕ → ℚ) (c0 : ℕ)
    (d : String), (pats.map (·.name)).Nodup → (∀ p ∈ pats, 0 ≤ p.base) →
    List.Chain' (· ≤ ·) (seriesFor (genAllRE pats noise c0) d) := by
  intro pats
  induction pats with
  | nil => intro noise c0 d _ _; simp [genAllRE, seriesFor]
  | cons p rest ih =>
    intro noise c0 d hnd hb
    have hnd2 : p.name ∉ rest.map (fun q => q.name) ∧
        (rest.map (fun q => q.name)).Nodup := by
      rw [List.map_cons, List.nodup_cons] at hnd
      exact hnd
    simp only [genAllRE, seriesFor_append]
    by_cases hd : d = p.name
    · subst hd
      rw [seriesFor_genRows_self, seriesFor_genAllRE_nil rest noise _ _ hnd2.1,
        List.append_nil]
      exact genValues_chain _ _ (hb p (List.mem_cons_self _ _))
        (effRatesRE_nonneg p noise c0)
    · rw [seriesFor_genRows_ne p.name d hd, List.nil_append]
      exact ih noise _ d hnd2.2
        (fun q hq => hb q (List.mem_cons.mpr (Or.inr hq)))

lemma chain_genAllWin : ∀ (pats : List WinPat) (noise : ℕ → ℚ) (c0 : ℕ)
    (d : String), (pats.map (·.name)).Nodup → (∀ p ∈ pats, 0 ≤ p.base) →
    List.Chain' (· ≤ ·) (seriesFor (genAllWin pats noise c0) d) := by
  intro pats
  induction pats with
  | nil => intro noise c0 d _ _; simp [genAllWin, seriesFor]
  | cons p rest ih =>
    intro noise c0 d hnd hb
    have hnd2 : p.name ∉ rest.map (fun q => q.name) ∧
        (rest.map (fun q => q.name)).Nodup := by
      rw [List.map_cons, List.nodup_cons] at hnd
      exact hnd
    simp only [genAllWin, seriesFor_append]
    by_cases hd : d = p.name
    · subst hd
      rw [seriesFor_genRows_self, seriesFor_genAllWin_nil rest noise _ _ hnd2.1,
        List.append_nil]
      exact genValues_chain _ _ (hb p (List.mem_cons_self _ _))
        (effRatesWin_nonneg p noise c0)
    · rw [seriesFor_genRows_ne p.name d hd, List.nil_append]
      exact ih noise _ d hnd2.2
        (fun q hq => hb q (List.mem_cons.mpr (Or.inr hq)))

/-- C10: in both generated temporal datasets every effective annual growth
rate is clamped at 0 after noise (`max(0, ...)`), and all base values are
nonnegative, so for every district and every noise stream the emitted
`winery_count` series and the `price_eur_sqm` series are non-decreasing in
year — the synthetic series can never show a year-over-year decline. -/
theorem temporal_series_monotone (noise : ℕ → ℚ) (d : String) :
    List.Chain' (· ≤ ·) (seriesFor (getAnnualWineryGrowthData noise) d) ∧
    List.Chain' (· ≤ ·) (seriesFor (getAnnualRealEstateData noise) d) :=
  ⟨chain_genAllWin wineryPatterns noise 0 d (by decide) (by decide),
   chain_genAllRE realEstatePatterns noise 0 d (by decide) (by decide)⟩
